import Mathlib

/-!
Verification of the list-state reconciliation engine of the grocer backend
(`ListOrganizationAgent.py`).  The Python classes are shallowly embedded:
`GroceryItem` is a record, a `ListState` (the Python `Dict[str, List[GroceryItem]]`,
whose iteration order is insertion order) is an association list with the same
insertion-order semantics, and the state-mutating methods become pure functions
on `ListState`.  Persistence (`state.json`) is modelled by a `Doc` value (missing
file / undecodable JSON / a JSON document tree) carried in an `Agent` record.
Python's `str.lower` is modelled character-wise (faithful on the ASCII names the
program manipulates), and Python's stable `sorted` is modelled by Mathlib's
stable `List.insertionSort` over the same key function.
-/

namespace Grocer

/-- Embeds the pydantic model `GroceryItem` (ListOrganizationAgent.py lines 14-20):
`id`, `name`, `aisle` are required strings; `quantity` and `quantity_unit` are
optional strings defaulting to `None`; `checked` is a boolean defaulting to false. -/
structure GroceryItem where
  id : String
  name : String
  aisle : String
  quantity : Option String := none
  quantity_unit : Option String := none
  checked : Bool := false
deriving DecidableEq

/-- One aisle entry: aisle name paired with its ordered item list. -/
abbrev Entry := String × List GroceryItem

/-- The state `Dict[str, List[GroceryItem]]`: an insertion-ordered mapping,
modelled as an association list (Python dicts preserve insertion order and
never hold duplicate keys). -/
abbrev ListState := List Entry

/-- Python `str.lower()`, modelled character-wise (ASCII case mapping). -/
def pyLower (s : String) : String := ⟨s.data.map Char.toLower⟩

/-- Python `str.strip()`: drop leading and trailing whitespace. -/
def pyStrip (s : String) : String :=
  ⟨((s.data.dropWhile Char.isWhitespace).reverse.dropWhile Char.isWhitespace).reverse⟩

/-- `self.default_aisles` (lines 30-42). -/
def defaultAisles : List String :=
  ["Produce", "Dairy", "Meat", "Frozen", "Pantry", "Canned Goods",
   "Baking", "Beverages", "Snacks", "Household", "Personal Care"]

/-- The sort key of line 135:
`self.default_aisles.index(x[0]) if x[0] in self.default_aisles else len(self.default_aisles)`.
`List.indexOf` returns the length when the element is absent, which is exactly
the Python expression. -/
def aisleKey (a : String) : Nat := List.indexOf a defaultAisles

/-- Comparison used by the stable sort of aisles (line 133-136). -/
def entryLE (x y : Entry) : Prop := aisleKey x.1 ≤ aisleKey y.1

instance : DecidableRel entryLE := fun _ _ => Nat.decLe _ _

instance : IsTotal Entry entryLE := ⟨fun _ _ => Nat.le_total _ _⟩

instance : IsTrans Entry entryLE := ⟨fun _ _ _ h h' => Nat.le_trans h h'⟩

/-- The aisle-sequencing step (lines 132-139): Python's `sorted` is a stable
sort by `aisleKey`, modelled by the stable `List.insertionSort` over `entryLE`. -/
def sequence (s : ListState) : ListState := List.insertionSort entryLE s

/-- Python dict lookup `state[a]` / `a in state`: first (only) matching key. -/
def getAisle (s : ListState) (a : String) : Option (List GroceryItem) :=
  (s.find? (fun e => e.1 == a)).map (·.2)

/-- `a in state` for a Python dict. -/
def containsKey (s : ListState) (a : String) : Bool := s.any (fun e => e.1 == a)

/-- `organized[a].append(it)` preceded by `organized[a] = []` when absent
(lines 128-130): append to the existing key's list, else add a new key at the
end (Python dicts append new keys in insertion order). -/
def dictAppend : ListState → String → GroceryItem → ListState
  | [], a, it => [(a, [it])]
  | e :: rest, a, it =>
      if e.1 == a then (e.1, e.2 ++ [it]) :: rest else e :: dictAppend rest a it

/-- `state[a] = l` for a key already present: replace that key's value in place. -/
def setVal : ListState → String → List GroceryItem → ListState
  | [], _, _ => []
  | e :: rest, a, l => if e.1 == a then (e.1, l) :: rest else e :: setVal rest a l

/-- `del state[a]`: remove the (unique) matching key. -/
def eraseKey : ListState → String → ListState
  | [], _ => []
  | e :: rest, a => if e.1 == a then rest else e :: eraseKey rest a

/-- The dedup scan of lines 120-124: does any aisle of `org` already hold an
item whose lowercased name equals the lowercased `n`? -/
def itemExists (org : ListState) (n : String) : Bool :=
  org.any (fun e => e.2.any (fun ex => pyLower ex.name == pyLower n))

/-- One iteration of the loop of lines 118-130: drop the incoming item if a
same-named (case-insensitive) item is already in `org`, else append it to the
aisle named by its own `aisle` field. -/
def mergeStep (org : ListState) (it : GroceryItem) : ListState :=
  if itemExists org it.name then org else dictAppend org it.aisle it

/-- `organize_by_aisle` (lines 108-142) as a function of the current state:
start from the current state when `preserve_existing` else from empty, fold the
incoming items through the dedup-or-append loop, then stably sort the aisles. -/
def organize_by_aisle (current : ListState) (items : List GroceryItem)
    (preserve_existing : Bool) : ListState :=
  sequence (items.foldl mergeStep (if preserve_existing then current else []))

/-- `update_item_status` (lines 144-152) on the state: when the aisle key is
present, rebuild each of its items with `checked` replaced by the new value on
an id match and by the item's own `checked` otherwise (all other fields are
copied via `item.dict()`); when the aisle is absent, the state is untouched. -/
def checkFn (item_id : String) (checked : Bool) (it : GroceryItem) : GroceryItem :=
  { it with checked := if it.id == item_id then checked else it.checked }

def update_item_status (st : ListState) (aisle item_id : String) (checked : Bool) :
    ListState :=
  match getAisle st aisle with
  | none => st
  | some items => setVal st aisle (items.map (checkFn item_id checked))

/-- `remove_item` (lines 154-165) on the state: when the aisle key is present,
keep only the items whose id differs; delete the aisle key if its list became
empty. -/
def remove_item (st : ListState) (aisle item_id : String) : ListState :=
  match getAisle st aisle with
  | none => st
  | some items =>
      let items' := items.filter (fun it => it.id != item_id)
      if items'.isEmpty then eraseKey st aisle else setVal st aisle items'

/-! ### Persistence: the JSON document of `state.json` (load_state / save_state) -/

/-- A JSON value as produced by `json.load` / consumed by `json.dump`. -/
inductive Json where
  | null
  | bool (b : Bool)
  | str (s : String)
  | num (n : Int)
  | arr (elems : List Json)
  | obj (fields : List (String × Json))

/-- The content of the `state.json` file as seen by `load_state`: the file can
be absent (`FileNotFoundError`), hold text that is not JSON
(`json.JSONDecodeError`), or hold a decoded JSON document. -/
inductive Doc where
  | missing
  | invalidJson
  | json (j : Json)

/-- The exceptions `load_state` / `categorize_items` can let escape: pydantic's
`ValidationError` from `GroceryItem(**item)`, Python `TypeError`, and
`AttributeError` from calling `.get`/`.items()` on a non-dict. -/
inductive LoadErr where
  | validationError
  | typeError
  | attributeError
deriving DecidableEq

/-- Python dict lookup on a decoded JSON object's fields. -/
def getField (fields : List (String × Json)) (k : String) : Option Json :=
  (fields.find? (fun e => e.1 == k)).map (·.2)

/-- A required `str` field of `GroceryItem`: pydantic v2 accepts a string and
rejects a missing key or a non-string value with a `ValidationError`. -/
def parseStrField (fields : List (String × Json)) (k : String) :
    Except LoadErr String :=
  match getField fields k with
  | some (.str s) => .ok s
  | _ => .error .validationError

/-- An `Optional[str]` field: absent or `null` gives `None`, a string gives the
string, anything else is a `ValidationError`. -/
def parseOptStrField (fields : List (String × Json)) (k : String) :
    Except LoadErr (Option String) :=
  match getField fields k with
  | none => .ok none
  | some .null => .ok none
  | some (.str s) => .ok (some s)
  | some _ => .error .validationError

/-- The `checked` field: absent defaults to false, a boolean is taken as is,
anything else is a `ValidationError`. -/
def parseBoolField (fields : List (String × Json)) (k : String) :
    Except LoadErr Bool :=
  match getField fields k with
  | none => .ok false
  | some (.bool b) => .ok b
  | some _ => .error .validationError

/-- `GroceryItem(**item)` applied to a decoded JSON value: validates the six
fields; a non-object raises (``**`` of a non-mapping is a `TypeError`). -/
def parseItem (j : Json) : Except LoadErr GroceryItem :=
  match j with
  | .obj fields =>
    match parseStrField fields "id" with
    | .error e => .error e
    | .ok i =>
      match parseStrField fields "name" with
      | .error e => .error e
      | .ok nm =>
        match parseStrField fields "aisle" with
        | .error e => .error e
        | .ok ai =>
          match parseOptStrField fields "quantity" with
          | .error e => .error e
          | .ok q =>
            match parseOptStrField fields "quantity_unit" with
            | .error e => .error e
            | .ok qu =>
              match parseBoolField fields "checked" with
              | .error e => .error e
              | .ok ch => .ok ⟨i, nm, ai, q, qu, ch⟩
  | _ => .error .typeError

/-- A Python list comprehension over a fallible body: sequential, aborting at
the first exception. -/
def mapExcept (f : α → Except LoadErr β) : List α → Except LoadErr (List β)
  | [] => .ok []
  | a :: as =>
    match f a with
    | .error e => .error e
    | .ok b =>
      match mapExcept f as with
      | .error e => .error e
      | .ok bs => .ok (b :: bs)

/-- `[GroceryItem(**item) for item in items]` (line 55): the aisle's value must
be a JSON array of objects, anything else raises. -/
def parseItems (j : Json) : Except LoadErr (List GroceryItem) :=
  match j with
  | .arr elems => mapExcept parseItem elems
  | _ => .error .typeError

/-- `load_state` (lines 48-58).  `FileNotFoundError` and `JSONDecodeError` are
caught and give the empty state; `state.get('items', {})` defaults to an empty
dict when the key is absent, raises `AttributeError` when the document is not a
dict, and the per-aisle/per-item reconstruction lets `TypeError` /
`ValidationError` escape uncaught. -/
def load_state (d : Doc) : Except LoadErr ListState :=
  match d with
  | .missing => .ok []
  | .invalidJson => .ok []
  | .json (.obj fields) =>
    match getField fields "items" with
    | none => .ok []
    | some (.obj aisles) =>
        mapExcept (fun e =>
          match parseItems e.2 with
          | .error err => .error err
          | .ok its => .ok ((e.1, its) : Entry)) aisles
    | some _ => .error .attributeError
  | .json _ => .error .attributeError

/-- `item.dict()` followed by `json.dump`: the six fields in declaration order,
`None` becoming `null`. -/
def optToJson : Option String → Json
  | none => .null
  | some s => .str s

def itemToJson (it : GroceryItem) : Json :=
  .obj [("id", .str it.id), ("name", .str it.name), ("aisle", .str it.aisle),
        ("quantity", optToJson it.quantity),
        ("quantity_unit", optToJson it.quantity_unit),
        ("checked", .bool it.checked)]

/-- The document written by `save_state` (lines 60-69):
`{'items': {aisle: [item.dict() for item in items], ...}}`. -/
def stateToJson (s : ListState) : Json :=
  .obj [("items", .obj (s.map (fun e => (e.1, .arr (e.2.map itemToJson)))))]

def save_state (s : ListState) : Doc := .json (stateToJson s)

/-! ### `categorize_items` (lines 71-106): post-processing of the model output -/

/-- Lines 87-90 for one raw record of `categorized_data["items"]`: give the
record a fresh uuid when it has no `id` key (new keys go to the end of the
dict), then validate it as a `GroceryItem`; a non-dict record raises. -/
def processRawItem (fresh : Nat → String) (k : Nat) (j : Json) :
    Except LoadErr GroceryItem :=
  match j with
  | .obj fields =>
      parseItem (.obj (if (getField fields "id").isSome then fields
                       else fields ++ [("id", .str (fresh k))]))
  | _ => .error .typeError

/-- The loop of lines 87-90 over the whole raw batch, with the uuid supply
indexed by position: sequential, aborting at the first exception. -/
def processRawList (fresh : Nat → String) (k : Nat) :
    List Json → Except LoadErr (List GroceryItem)
  | [] => .ok []
  | j :: rest =>
    match processRawItem fresh k j with
    | .error e => .error e
    | .ok it =>
      match processRawList fresh (k + 1) rest with
      | .error e => .error e
      | .ok its => .ok (it :: its)

/-- Lines 92-98: the set of lowercased names already in the current state. -/
def existingNames (current : ListState) : List String :=
  (current.map (fun e => e.2.map (fun it => pyLower it.name))).flatten

/-- `categorize_items` (lines 71-106) as a function of the decoded model
output `categorized_data["items"]`: validate each record (assigning fresh ids),
then, when `preserve_existing`, keep only the records whose lowercased name is
not already present in the current state. -/
def categorize_items (current : ListState) (raw : List Json)
    (fresh : Nat → String) (preserve_existing : Bool) :
    Except LoadErr (List GroceryItem) :=
  match processRawList fresh 0 raw with
  | .error e => .error e
  | .ok new_items =>
      .ok (if preserve_existing then
             new_items.filter
               (fun it => !((existingNames current).contains (pyLower it.name)))
           else new_items)

/-- The agent's mutable state: the in-memory `self.current_items` together with
the persisted `state.json` document. -/
structure Agent where
  current_items : ListState
  persisted : Doc

/-- `update_item_status` (lines 144-152) with its save effect: when the aisle
key is present, the rebuilt full state is written to the persisted document
(`self.save_state()`), unconditionally on whether any id matched. -/
def Agent.update_item_status (ag : Agent) (aisle item_id : String)
    (checked : Bool) : Agent :=
  match getAisle ag.current_items aisle with
  | none => ag
  | some items =>
      let ci := setVal ag.current_items aisle (items.map (checkFn item_id checked))
      { current_items := ci, persisted := save_state ci }

/-! ### Derived predicates and concrete inputs used by the theorems -/

/-- The §3 invariant: no aisle key maps to an empty item list. -/
def NoEmptyAisle (s : ListState) : Prop := ∀ e ∈ s, e.2 ≠ []

/-- Well-formedness inherited from Python dicts: aisle keys are distinct. -/
def keysNodup (s : ListState) : Prop := (s.map Prod.fst).Nodup

/-- An item occurs somewhere in the state. -/
def memItem (s : ListState) (x : GroceryItem) : Prop := ∃ e ∈ s, x ∈ e.2

/-- The field `k` is present with a string value. -/
def strishField (fields : List (String × Json)) (k : String) : Bool :=
  match getField fields k with
  | some (.str _) => true
  | _ => false

/-- A raw incoming record lacking a usable name or aisle: not a JSON object,
or its `name`/`aisle` field is absent or not a string. -/
def lacksUsable (j : Json) : Bool :=
  match j with
  | .obj fields => !(strishField fields "name") || !(strishField fields "aisle")
  | _ => true

/-- Modelled from the spec (§4.2): `identity_key(item)` = lowercase of the
trimmed name.  Compared against the code's dedup key, which does not trim. -/
def specIdentityKey (name : String) : String := pyLower (pyStrip name)

def c1Milk : GroceryItem := ⟨"id-1", "Milk", "Dairy", none, none, false⟩

def c1Incoming : GroceryItem := ⟨"id-2", "milk", "Dairy", some "1", some "gal", false⟩

def c1State : ListState := [("Dairy", [c1Milk])]

def c2First : GroceryItem := ⟨"id-a", "Milk", "Dairy", none, none, false⟩

def c2Second : GroceryItem := ⟨"id-b", "milk", "Dairy", none, none, false⟩

def c3Milk : GroceryItem := ⟨"id-m", "Milk", "Dairy", none, none, false⟩

def c3SpaceMilk : GroceryItem := ⟨"id-s", " Milk", "Dairy", none, none, false⟩

def c3State : ListState := [("Dairy", [c3Milk])]

def c5Peas : GroceryItem := ⟨"id-p", "Peas", "Frozen", none, none, false⟩

def c5State : ListState := [("Frozen", [c5Peas])]

def c8Eggs : Json := .obj [("name", .str "Eggs"), ("aisle", .str "Dairy")]

def c8Bad : Json := .obj [("name", .str "Bread")]

def c9Bread : GroceryItem := ⟨"id-br", "Bread", "Pantry", none, none, false⟩

def c9State : ListState := [("Dairy", [⟨"id-ch", "Cheese", "Dairy", none, none, false⟩])]

def c10Milk : GroceryItem := ⟨"id-10", "Milk", "Dairy", none, none, false⟩

def c10State : ListState := [("Dairy", [c10Milk])]

/-! ### Infrastructure lemmas -/

theorem find?_eq_head_filter (p : α → Bool) (l : List α) :
    l.find? p = (l.filter p).head? := by
  induction l with
  | nil => rfl
  | cons a l ih =>
    cases h : p a
    · rw [List.find?_cons_of_neg _ (by simp [h]), List.filter_cons_of_neg (by simp [h]), ih]
    · rw [List.find?_cons_of_pos _ h, List.filter_cons_of_pos h, List.head?_cons]

theorem filter_orderedInsert_pos (r : α → α → Prop) [DecidableRel r] (p : α → Bool)
    (x : α) (hx : p x = true) (h : ∀ y, p y = true → r x y) :
    ∀ l : List α, (l.orderedInsert r x).filter p = x :: l.filter p
  | [] => by simp [List.orderedInsert, hx]
  | y :: l => by
    by_cases hr : r x y
    · simp [List.orderedInsert, if_pos hr, List.filter_cons, hx]
    · have hpy : p y = false := by
        cases hy : p y
        · rfl
        · exact absurd (h y hy) hr
      simp [List.orderedInsert, if_neg hr, List.filter_cons, hpy, hx,
            filter_orderedInsert_pos r p x hx h l]

theorem filter_orderedInsert_neg (r : α → α → Prop) [DecidableRel r] (p : α → Bool)
    (x : α) (hx : p x = false) :
    ∀ l : List α, (l.orderedInsert r x).filter p = l.filter p
  | [] => by simp [List.orderedInsert, hx]
  | y :: l => by
    by_cases hr : r x y
    · simp [List.orderedInsert, if_pos hr, List.filter_cons, hx]
    · simp [List.orderedInsert, if_neg hr, List.filter_cons, hx,
            filter_orderedInsert_neg r p x hx l]

/-- Stability of the modelled sort: a filter whose elements are pairwise
related is untouched by sorting. -/
theorem filter_insertionSort (r : α → α → Prop) [DecidableRel r] (p : α → Bool)
    (h : ∀ x y, p x = true → p y = true → r x y) :
    ∀ l : List α, (l.insertionSort r).filter p = l.filter p
  | [] => rfl
  | a :: l => by
    cases ha : p a
    · rw [List.insertionSort, filter_orderedInsert_neg r p a ha,
          filter_insertionSort r p h l]
      simp [List.filter_cons, ha]
    · rw [List.insertionSort, filter_orderedInsert_pos r p a ha (h a · ha),
          filter_insertionSort r p h l]
      simp [List.filter_cons, ha]

theorem sequence_perm (s : ListState) : (sequence s).Perm s :=
  List.perm_insertionSort entryLE s

theorem sequence_sorted (s : ListState) : List.Sorted entryLE (sequence s) :=
  List.sorted_insertionSort entryLE s

theorem sequence_idem (s : ListState) : sequence (sequence s) = sequence s :=
  List.Sorted.insertionSort_eq (sequence_sorted s)

theorem getAisle_sequence (s : ListState) (a : String) :
    getAisle (sequence s) a = getAisle s a := by
  unfold getAisle sequence
  rw [find?_eq_head_filter, find?_eq_head_filter,
      filter_insertionSort entryLE (fun e => e.1 == a)]
  intro x y hx hy
  have hx' : x.1 = a := by simpa using hx
  have hy' : y.1 = a := by simpa using hy
  show aisleKey x.1 ≤ aisleKey y.1
  rw [hx', hy']

/-- Total number of items in a state. -/
def itemCount (s : ListState) : Nat := (s.map (fun e => e.2.length)).sum

theorem itemCount_dictAppend (s : ListState) (a : String) (it : GroceryItem) :
    itemCount (dictAppend s a it) = itemCount s + 1 := by
  induction s with
  | nil => simp [dictAppend, itemCount]
  | cons e rest ih =>
    by_cases h : (e.1 == a) = true
    · simp [dictAppend, h, itemCount, Nat.add_assoc, Nat.add_comm 1]
    · simp only [dictAppend, h, if_false, Bool.false_eq_true]
      simp [itemCount] at ih ⊢
      omega

theorem itemCount_sequence (s : ListState) : itemCount (sequence s) = itemCount s :=
  List.Perm.sum_eq (List.Perm.map _ (sequence_perm s))

theorem itemExists_iff (s : ListState) (n : String) :
    itemExists s n = true ↔ ∃ e ∈ s, ∃ it ∈ e.2, pyLower it.name = pyLower n := by
  simp [itemExists, List.any_eq_true, beq_iff_eq]

theorem memItem_dictAppend {s : ListState} {a : String} {it x : GroceryItem}
    (h : memItem (dictAppend s a it) x) : memItem s x ∨ x = it := by
  induction s with
  | nil =>
    obtain ⟨e, he, hx⟩ := h
    simp [dictAppend] at he
    subst he
    simp at hx
    exact Or.inr hx
  | cons e rest ih =>
    by_cases hk : (e.1 == a) = true
    · obtain ⟨f, hf, hx⟩ := h
      simp only [dictAppend, hk, if_true] at hf
      rcases List.mem_cons.mp hf with hf | hf
      · subst hf
        rcases List.mem_append.mp hx with hx | hx
        · exact Or.inl ⟨e, List.mem_cons_self .., hx⟩
        · simp at hx
          exact Or.inr hx
      · exact Or.inl ⟨f, List.mem_cons_of_mem _ hf, hx⟩
    · obtain ⟨f, hf, hx⟩ := h
      simp only [dictAppend, hk, if_false, Bool.false_eq_true] at hf
      rcases List.mem_cons.mp hf with hf | hf
      · subst hf
        exact Or.inl ⟨f, List.mem_cons_self .., hx⟩
      · rcases ih ⟨f, hf, hx⟩ with h' | h'
        · obtain ⟨g, hg, hxg⟩ := h'
          exact Or.inl ⟨g, List.mem_cons_of_mem _ hg, hxg⟩
        · exact Or.inr h'

theorem memItem_mergeStep {s : ListState} {i x : GroceryItem}
    (h : memItem (mergeStep s i) x) : memItem s x ∨ x = i := by
  unfold mergeStep at h
  by_cases he : itemExists s i.name = true
  · rw [if_pos he] at h
    exact Or.inl h
  · rw [if_neg he] at h
    exact memItem_dictAppend h

theorem memItem_foldl :
    ∀ (l : List GroceryItem) (acc : ListState) (x : GroceryItem),
      memItem (l.foldl mergeStep acc) x → memItem acc x ∨ x ∈ l
  | [], _, _, h => Or.inl h
  | i :: l, acc, x, h => by
    rcases memItem_foldl l (mergeStep acc i) x h with h' | h'
    · rcases memItem_mergeStep h' with h'' | h''
      · exact Or.inl h''
      · exact Or.inr (h'' ▸ List.mem_cons_self ..)
    · exact Or.inr (List.mem_cons_of_mem _ h')

theorem memItem_of_perm {s s' : ListState} (hp : s.Perm s') {x : GroceryItem}
    (h : memItem s x) : memItem s' x := by
  obtain ⟨e, he, hx⟩ := h
  exact ⟨e, hp.mem_iff.mp he, hx⟩

theorem NoEmptyAisle_dictAppend {s : ListState} {a : String} {it : GroceryItem}
    (hs : NoEmptyAisle s) : NoEmptyAisle (dictAppend s a it) := by
  induction s with
  | nil =>
    intro e he
    simp [dictAppend] at he
    subst he
    simp
  | cons f rest ih =>
    intro e he
    by_cases hk : (f.1 == a) = true
    · simp only [dictAppend, hk, if_true] at he
      rcases List.mem_cons.mp he with rfl | he
      · simp
      · exact hs e (List.mem_cons_of_mem _ he)
    · simp only [dictAppend, hk, if_false, Bool.false_eq_true] at he
      rcases List.mem_cons.mp he with rfl | he
      · exact hs e (List.mem_cons_self ..)
      · exact ih (fun g hg => hs g (List.mem_cons_of_mem _ hg)) e he

theorem NoEmptyAisle_mergeStep {s : ListState} {i : GroceryItem}
    (hs : NoEmptyAisle s) : NoEmptyAisle (mergeStep s i) := by
  unfold mergeStep
  by_cases he : itemExists s i.name = true
  · rwa [if_pos he]
  · rw [if_neg he]
    exact NoEmptyAisle_dictAppend hs

theorem NoEmptyAisle_foldl :
    ∀ (l : List GroceryItem) (acc : ListState), NoEmptyAisle acc →
      NoEmptyAisle (l.foldl mergeStep acc)
  | [], _, h => h
  | i :: l, acc, h => NoEmptyAisle_foldl l (mergeStep acc i) (NoEmptyAisle_mergeStep h)

theorem NoEmptyAisle_sequence {s : ListState} (hs : NoEmptyAisle s) :
    NoEmptyAisle (sequence s) :=
  fun e he => hs e ((sequence_perm s).mem_iff.mp he)

theorem getAisle_cons (e : Entry) (rest : ListState) (a : String) :
    getAisle (e :: rest) a = if e.1 == a then some e.2 else getAisle rest a := by
  unfold getAisle
  rw [List.find?_cons]
  cases h : (e.1 == a) <;> simp [h]

theorem getAisle_eq_some {s : ListState} {a : String} {items : List GroceryItem}
    (h : getAisle s a = some items) : ∃ e ∈ s, e.1 = a ∧ e.2 = items := by
  induction s with
  | nil => simp [getAisle] at h
  | cons e rest ih =>
    rw [getAisle_cons] at h
    by_cases hk : (e.1 == a) = true
    · rw [if_pos hk] at h
      exact ⟨e, List.mem_cons_self .., eq_of_beq hk, by simpa using h⟩
    · rw [if_neg hk] at h
      obtain ⟨f, hf, hfa, hfi⟩ := ih h
      exact ⟨f, List.mem_cons_of_mem _ hf, hfa, hfi⟩

theorem NoEmptyAisle_setVal {s : ListState} {a : String} {l : List GroceryItem}
    (hs : NoEmptyAisle s) (hl : l ≠ []) : NoEmptyAisle (setVal s a l) := by
  induction s with
  | nil => intro e he; cases he
  | cons f rest ih =>
    intro e he
    by_cases hk : (f.1 == a) = true
    · simp only [setVal, hk, if_true] at he
      rcases List.mem_cons.mp he with rfl | he
      · exact hl
      · exact hs e (List.mem_cons_of_mem _ he)
    · simp only [setVal, hk, if_false, Bool.false_eq_true] at he
      rcases List.mem_cons.mp he with rfl | he
      · exact hs e (List.mem_cons_self ..)
      · exact ih (fun g hg => hs g (List.mem_cons_of_mem _ hg)) e he

theorem NoEmptyAisle_eraseKey {s : ListState} {a : String}
    (hs : NoEmptyAisle s) : NoEmptyAisle (eraseKey s a) := by
  induction s with
  | nil => intro e he; cases he
  | cons f rest ih =>
    intro e he
    by_cases hk : (f.1 == a) = true
    · simp only [eraseKey, hk, if_true] at he
      exact hs e (List.mem_cons_of_mem _ he)
    · simp only [eraseKey, hk, if_false, Bool.false_eq_true] at he
      rcases List.mem_cons.mp he with rfl | he
      · exact hs e (List.mem_cons_self ..)
      · exact ih (fun g hg => hs g (List.mem_cons_of_mem _ hg)) e he

theorem getAisle_none_of_not_mem {s : ListState} {a : String}
    (h : a ∉ s.map Prod.fst) : getAisle s a = none := by
  have hf : s.find? (fun e => e.1 == a) = none := by
    rw [List.find?_eq_none]
    intro e he hpe
    exact h (List.mem_map.mpr ⟨e, he, eq_of_beq hpe⟩)
  simp [getAisle, hf]

theorem getAisle_eraseKey_self {s : ListState} {a : String} (hk : keysNodup s) :
    getAisle (eraseKey s a) a = none := by
  induction s with
  | nil => rfl
  | cons e rest ih =>
    have hk' : e.1 ∉ rest.map Prod.fst ∧ keysNodup rest := by
      simpa [keysNodup] using hk
    by_cases hke : (e.1 == a) = true
    · simp only [eraseKey, hke, if_true]
      exact getAisle_none_of_not_mem (eq_of_beq hke ▸ hk'.1)
    · simp only [eraseKey, hke, if_false, Bool.false_eq_true]
      rw [getAisle_cons, if_neg hke]
      exact ih hk'.2

theorem getAisle_setVal_self {s : ListState} {a : String}
    {l items : List GroceryItem} (h : getAisle s a = some items) :
    getAisle (setVal s a l) a = some l := by
  induction s with
  | nil => simp [getAisle] at h
  | cons e rest ih =>
    by_cases hk : (e.1 == a) = true
    · simp only [setVal, hk, if_true]
      rw [getAisle_cons, if_pos hk]
    · simp only [setVal, hk, if_false, Bool.false_eq_true]
      rw [getAisle_cons] at h
      rw [if_neg hk] at h
      rw [getAisle_cons, if_neg hk]
      exact ih h

theorem getAisle_setVal_ne {s : ListState} {a b : String}
    {l : List GroceryItem} (h : b ≠ a) :
    getAisle (setVal s a l) b = getAisle s b := by
  induction s with
  | nil => rfl
  | cons e rest ih =>
    by_cases hk : (e.1 == a) = true
    · have hb : (e.1 == b) = false := by
        rw [eq_of_beq hk]
        exact beq_eq_false_iff_ne.mpr (fun hab => h hab.symm)
      simp only [setVal, hk, if_true]
      rw [getAisle_cons, getAisle_cons]
      simp [hb]
    · simp only [setVal, hk, if_false, Bool.false_eq_true]
      rw [getAisle_cons, getAisle_cons]
      cases hb : (e.1 == b)
      · simpa using ih
      · simp

theorem setVal_self {s : ListState} {a : String} {items : List GroceryItem}
    (h : getAisle s a = some items) : setVal s a items = s := by
  induction s with
  | nil => rfl
  | cons e rest ih =>
    rw [getAisle_cons] at h
    by_cases hk : (e.1 == a) = true
    · rw [if_pos hk] at h
      have h2 : items = e.2 := by simpa using h.symm
      simp only [setVal, hk, if_true, h2]
    · rw [if_neg hk] at h
      simp only [setVal, hk, if_false, Bool.false_eq_true, ih h]

theorem map_checkFn_no_match {items : List GroceryItem} {item_id : String}
    {c : Bool} (h : ∀ it ∈ items, it.id ≠ item_id) :
    items.map (checkFn item_id c) = items := by
  induction items with
  | nil => rfl
  | cons it rest ih =>
    have hne : (it.id == item_id) = false :=
      beq_eq_false_iff_ne.mpr (h it (List.mem_cons_self ..))
    have hit : checkFn item_id c it = it := by
      unfold checkFn
      rw [hne]
      rfl
    rw [List.map_cons, hit, ih (fun g hg => h g (List.mem_cons_of_mem _ hg))]

theorem parseStrField_err {fields : List (String × Json)} {k : String}
    (h : strishField fields k = false) :
    parseStrField fields k = .error .validationError := by
  unfold strishField at h
  unfold parseStrField
  rcases hg : getField fields k with _ | j
  · rfl
  · rw [hg] at h
    cases j <;> simp_all

theorem getField_append_right {fields : List (String × Json)} {k k' : String}
    {v : Json} (h : (k' == k) = false) :
    getField (fields ++ [(k', v)]) k = getField fields k := by
  unfold getField
  rw [List.find?_append]
  have hone : List.find? (fun e => e.1 == k) [(k', v)] = none := by
    simp [List.find?, h]
  rw [hone]
  cases List.find? (fun e => e.1 == k) fields <;> rfl

theorem strishField_append {fields : List (String × Json)} {k k' : String}
    {v : Json} (h : (k' == k) = false) :
    strishField (fields ++ [(k', v)]) k = strishField fields k := by
  unfold strishField
  rw [getField_append_right h]

theorem parseItem_err_name_aisle {fields : List (String × Json)}
    (h : strishField fields "name" = false ∨ strishField fields "aisle" = false) :
    ∃ e, parseItem (Json.obj fields) = Except.error e := by
  rcases hid : parseStrField fields "id" with e | idv
  · exact ⟨e, by simp only [parseItem, hid]⟩
  · rcases h with hn | ha
    · have hname := parseStrField_err hn
      exact ⟨.validationError, by simp only [parseItem, hid, hname]⟩
    · rcases hnm : parseStrField fields "name" with e | nm
      · exact ⟨e, by simp only [parseItem, hid, hnm]⟩
      · have haisle := parseStrField_err ha
        exact ⟨.validationError, by simp only [parseItem, hid, hnm, haisle]⟩

theorem processRawItem_err {j : Json} (h : lacksUsable j = true)
    (fresh : Nat → String) (k : Nat) :
    ∃ e, processRawItem fresh k j = .error e := by
  cases j with
  | obj fields =>
    simp only [lacksUsable, Bool.or_eq_true, Bool.not_eq_true'] at h
    by_cases hid : (getField fields "id").isSome = true
    · have hred : processRawItem fresh k (Json.obj fields)
          = parseItem (Json.obj fields) := by
        simp only [processRawItem, hid, if_true]
      rw [hred]
      exact parseItem_err_name_aisle h
    · have hred : processRawItem fresh k (Json.obj fields)
          = parseItem (Json.obj (fields ++ [("id", Json.str (fresh k))])) := by
        simp only [processRawItem]
        rw [if_neg hid]
      rw [hred]
      apply parseItem_err_name_aisle
      rcases h with hn | ha
      · exact Or.inl (by rw [strishField_append (by decide)]; exact hn)
      · exact Or.inr (by rw [strishField_append (by decide)]; exact ha)
  | null => exact ⟨.typeError, rfl⟩
  | bool b => exact ⟨.typeError, rfl⟩
  | str s => exact ⟨.typeError, rfl⟩
  | num n => exact ⟨.typeError, rfl⟩
  | arr elems => exact ⟨.typeError, rfl⟩

theorem processRawList_err (fresh : Nat → String) :
    ∀ (raw : List Json) (k : Nat), (∃ j ∈ raw, lacksUsable j = true) →
      ∃ e, processRawList fresh k raw = .error e
  | [], _, h => by
    obtain ⟨j, hj, _⟩ := h
    cases hj
  | j :: rest, k, h => by
    rcases h with ⟨j', hj', hl⟩
    rcases List.mem_cons.mp hj' with rfl | hj'
    · obtain ⟨e, he⟩ := processRawItem_err hl fresh k
      refine ⟨e, ?_⟩
      unfold processRawList
      rw [he]
    · cases hp : processRawItem fresh k j with
      | error e =>
        refine ⟨e, ?_⟩
        unfold processRawList
        rw [hp]
      | ok it =>
        obtain ⟨e, he⟩ := processRawList_err fresh rest (k + 1) ⟨j', hj', hl⟩
        refine ⟨e, ?_⟩
        unfold processRawList
        rw [hp, he]

theorem parseItem_itemToJson (it : GroceryItem) : parseItem (itemToJson it) = .ok it := by
  cases it with
  | mk i nm ai q qu ch => cases q <;> cases qu <;> rfl

theorem mapExcept_map_ok {α β} (f : β → α) (g : α → Except LoadErr β)
    (h : ∀ b, g (f b) = .ok b) : ∀ l : List β, mapExcept g (l.map f) = .ok l
  | [] => rfl
  | b :: l => by
    rw [List.map_cons]
    simp only [mapExcept, h b, mapExcept_map_ok f g h l]

/-! ### The claims -/

/-- C1: for every current state containing an item whose case-insensitive name
equals an incoming item's, merging that item with `preserve_existing = true`
drops it: the result is just the re-sequenced current state, and every aisle's
content is exactly what it was. -/
theorem C1_preserve_dedup (current : ListState) (i : GroceryItem)
    (h : ∃ e ∈ current, ∃ it ∈ e.2, pyLower it.name = pyLower i.name) :
    organize_by_aisle current [i] true = sequence current
    ∧ ∀ a, getAisle (organize_by_aisle current [i] true) a = getAisle current a := by
  have hex : itemExists current i.name = true := (itemExists_iff current i.name).mpr h
  have h1 : organize_by_aisle current [i] true = sequence current := by
    simp [organize_by_aisle, mergeStep, hex]
  exact ⟨h1, fun a => by rw [h1, getAisle_sequence]⟩

/-- Witness for C1 at a concrete state holding "Milk" and an incoming "milk". -/
theorem C1_preserve_dedup_witness :
    organize_by_aisle c1State [c1Incoming] true = sequence c1State
    ∧ ∀ a, getAisle (organize_by_aisle c1State [c1Incoming] true) a = getAisle c1State a :=
  C1_preserve_dedup c1State c1Incoming
    ⟨("Dairy", [c1Milk]), by decide, c1Milk, by decide, by decide⟩

/-- C2 counterexample: two incoming items that differ only in case, merged with
`preserve_existing = false` into the empty state, do NOT both get appended: the
dedup scan of lines 120-124 runs against the partially built result, so only
the first survives, refuting "no incoming-vs-incoming deduplication". -/
theorem C2_counterexample :
    pyLower c2First.name = pyLower c2Second.name
    ∧ organize_by_aisle [] [c2First, c2Second] false = [("Dairy", [c2First])] := by
  constructor
  · decide
  · decide

/-- C2 as amended: with `preserve_existing = false` the current state is
discarded wholesale (so a same-named existing item never blocks an incoming
one), but incoming-vs-incoming duplicates ARE deduplicated: of two incoming
items with the same identity key only the first is appended. -/
theorem C2_amended_no_preserve (current : ListState) (i j : GroceryItem)
    (h : pyLower i.name = pyLower j.name) :
    (∀ items, organize_by_aisle current items false = organize_by_aisle [] items false)
    ∧ organize_by_aisle current [i, j] false = organize_by_aisle current [i] false := by
  refine ⟨fun items => rfl, ?_⟩
  have hfold : List.foldl mergeStep ([] : ListState) [i, j]
      = List.foldl mergeStep ([] : ListState) [i] := by
    simp [List.foldl, mergeStep, itemExists, dictAppend, h]
  simpa [organize_by_aisle] using congrArg sequence hfold

/-- Witness for C2's amended claim at concrete case-differing items. -/
theorem C2_amended_no_preserve_witness :
    organize_by_aisle [] [c2First, c2Second] false
      = organize_by_aisle [] [c2First] false :=
  (C2_amended_no_preserve [] c2First c2Second (by decide)).2

/-- C3 counterexample: "Milk" and " Milk" have equal trimmed-lowercased
identity keys, yet merging the whitespace-variant with `preserve_existing =
true` appends it as a duplicate — the code compares `name.lower()` without any
trimming, refuting the claimed identity key. -/
theorem C3_counterexample :
    specIdentityKey c3SpaceMilk.name = specIdentityKey c3Milk.name
    ∧ organize_by_aisle c3State [c3SpaceMilk] true
        = [("Dairy", [c3Milk, c3SpaceMilk])] := by
  constructor
  · decide
  · decide

/-- C3 as amended: the merge engine treats an incoming item as already present
iff some existing item's lowercased (untrimmed) name equals the incoming
item's lowercased name; names differing only by surrounding whitespace are
distinct keys. -/
theorem C3_amended_identity (s : ListState) (i : GroceryItem) :
    organize_by_aisle s [i] true = sequence s
    ↔ ∃ e ∈ s, ∃ it ∈ e.2, pyLower it.name = pyLower i.name := by
  constructor
  · intro h
    by_contra hno
    have hex : itemExists s i.name = false := by
      cases hx : itemExists s i.name
      · rfl
      · exact absurd ((itemExists_iff s i.name).mp hx) hno
    have hrw : organize_by_aisle s [i] true = sequence (dictAppend s i.aisle i) := by
      simp [organize_by_aisle, mergeStep, hex]
    rw [hrw] at h
    have hc := congrArg itemCount h
    rw [itemCount_sequence, itemCount_sequence, itemCount_dictAppend] at hc
    omega
  · intro h
    have hex : itemExists s i.name = true := (itemExists_iff s i.name).mpr h
    simp [organize_by_aisle, mergeStep, hex]

/-- C6: aisle sequencing is idempotent; the result is sorted by the canonical
aisle key (known aisles in canonical order, unknown aisles — key = list
length — after all known ones); unknown aisles keep their first-seen relative
order; and sequencing only permutes the aisle entries, leaving each aisle's
item list untouched. -/
theorem C6_sequence_properties (s : ListState) :
    sequence (sequence s) = sequence s
    ∧ List.Pairwise entryLE (sequence s)
    ∧ (sequence s).filter (fun e => !(defaultAisles.contains e.1))
        = s.filter (fun e => !(defaultAisles.contains e.1))
    ∧ (sequence s).Perm s
    ∧ ∀ a, getAisle (sequence s) a = getAisle s a := by
  refine ⟨sequence_idem s, sequence_sorted s, ?_, sequence_perm s,
    getAisle_sequence s⟩
  apply filter_insertionSort
  intro x y hx hy
  have hx' : x.1 ∉ defaultAisles := by simpa using hx
  have hy' : y.1 ∉ defaultAisles := by simpa using hy
  show aisleKey x.1 ≤ aisleKey y.1
  unfold aisleKey
  rw [List.indexOf_eq_length.mpr hx', List.indexOf_eq_length.mpr hy']

/-- C9: with `preserve_existing = false` the merge never consults the current
state — the result equals merging into the empty state — and every item of the
result is one of the incoming items, so every existing item not re-sent is
absent from the result. -/
theorem C9_replace_semantics (current : ListState) (items : List GroceryItem) :
    organize_by_aisle current items false = organize_by_aisle [] items false
    ∧ ∀ x, memItem (organize_by_aisle current items false) x → x ∈ items := by
  refine ⟨rfl, fun x hx => ?_⟩
  have hx' : memItem (List.foldl mergeStep ([] : ListState) items) x := by
    refine memItem_of_perm ?_ hx
    exact sequence_perm _
  rcases memItem_foldl items [] x hx' with h | h
  · obtain ⟨e, he, _⟩ := h
    cases he
  · exact h

/-- Witness for C9: a concrete merge of one item into a non-empty state with
`preserve_existing = false`; the item found in the result is an incoming one. -/
theorem C9_replace_semantics_witness :
    organize_by_aisle c9State [c9Bread] false = organize_by_aisle [] [c9Bread] false
    ∧ c9Bread ∈ [c9Bread] :=
  ⟨(C9_replace_semantics c9State [c9Bread]).1,
   (C9_replace_semantics c9State [c9Bread]).2 c9Bread
     ⟨("Pantry", [c9Bread]), by decide, by decide⟩⟩

/-- C5: on any well-formed state (no empty aisle lists, distinct keys), the
merge, the checked-status update and the removal all preserve the no-empty-
aisle invariant, and removing the sole item of an aisle removes the aisle key
itself from the state. -/
theorem C5_no_empty_aisle (s : ListState) (hs : NoEmptyAisle s) (hk : keysNodup s) :
    (∀ items p, NoEmptyAisle (organize_by_aisle s items p))
    ∧ (∀ aisle item_id c, NoEmptyAisle (update_item_status s aisle item_id c))
    ∧ (∀ aisle item_id, NoEmptyAisle (remove_item s aisle item_id))
    ∧ (∀ aisle it, getAisle s aisle = some [it] →
        getAisle (remove_item s aisle it.id) aisle = none) := by
  refine ⟨?_, ?_, ?_, ?_⟩
  · intro items p
    apply NoEmptyAisle_sequence
    apply NoEmptyAisle_foldl
    cases p
    · intro e he
      cases he
    · exact hs
  · intro aisle item_id c
    unfold update_item_status
    cases hg : getAisle s aisle with
    | none => exact hs
    | some items =>
      obtain ⟨e, he, _, hi⟩ := getAisle_eq_some hg
      have hne : items ≠ [] := hi ▸ hs e he
      apply NoEmptyAisle_setVal hs
      cases items
      · exact absurd rfl hne
      · simp
  · intro aisle item_id
    unfold remove_item
    cases hg : getAisle s aisle with
    | none => exact hs
    | some items =>
      show NoEmptyAisle
        (if (items.filter (fun it => it.id != item_id)).isEmpty = true
         then eraseKey s aisle
         else setVal s aisle (items.filter (fun it => it.id != item_id)))
      by_cases hemp : (items.filter (fun it => it.id != item_id)).isEmpty = true
      · rw [if_pos hemp]
        exact NoEmptyAisle_eraseKey hs
      · rw [if_neg hemp]
        apply NoEmptyAisle_setVal hs
        intro hnil
        rw [hnil] at hemp
        exact hemp rfl
  · intro aisle it hg
    unfold remove_item
    rw [hg]
    show getAisle
      (if (([it].filter (fun x => x.id != it.id)).isEmpty = true)
       then eraseKey s aisle
       else setVal s aisle ([it].filter (fun x => x.id != it.id))) aisle = none
    have hfilter : [it].filter (fun x => x.id != it.id) = [] := by
      simp [List.filter]
    rw [hfilter]
    simp only [List.isEmpty_nil, if_true]
    exact getAisle_eraseKey_self hk

/-- Witness for C5 at a concrete one-aisle state: all three operations keep
the invariant, and removing the sole Frozen item removes the "Frozen" key. -/
theorem C5_no_empty_aisle_witness :
    (∀ items p, NoEmptyAisle (organize_by_aisle c5State items p))
    ∧ (∀ aisle item_id c, NoEmptyAisle (update_item_status c5State aisle item_id c))
    ∧ (∀ aisle item_id, NoEmptyAisle (remove_item c5State aisle item_id))
    ∧ (∀ aisle it, getAisle c5State aisle = some [it] →
        getAisle (remove_item c5State aisle it.id) aisle = none) :=
  C5_no_empty_aisle c5State
    (by unfold NoEmptyAisle; decide) (by unfold keysNodup; decide)

/-- C7: saving any state and loading it back returns exactly the same state
(in particular for non-empty states with several aisles and `null` optional
fields, which serialize to `null` and parse back to `None`). -/
theorem C7_roundtrip (s : ListState) : load_state (save_state s) = Except.ok s := by
  show mapExcept
      (fun e =>
        match parseItems e.2 with
        | .error err => .error err
        | .ok its => .ok ((e.1, its) : Entry))
      (s.map (fun e => (e.1, Json.arr (e.2.map itemToJson)))) = Except.ok s
  exact mapExcept_map_ok (fun e => (e.1, Json.arr (e.2.map itemToJson)))
    (fun e =>
      match parseItems e.2 with
      | .error err => .error err
      | .ok its => .ok ((e.1, its) : Entry))
    (fun e => by
      have hpi : parseItems (Json.arr (e.2.map itemToJson)) = Except.ok e.2 :=
        mapExcept_map_ok itemToJson parseItem parseItem_itemToJson e.2
      simp only [hpi]) s

/-- C8 counterexample: a batch holding a well-formed record ("Eggs") and a
record lacking an aisle ("Bread"): `categorize_items` raises the uncaught
`ValidationError` for the whole batch, so the bad record is not silently
dropped and the good record is NOT merged, refuting the claim. -/
theorem C8_counterexample :
    lacksUsable c8Bad = true
    ∧ categorize_items [] [c8Eggs, c8Bad] (fun _ => "u1") true
        = Except.error LoadErr.validationError :=
  ⟨rfl, rfl⟩

/-- C8 as amended: when any incoming record lacks a usable name or aisle, the
whole categorization step raises (an exception escapes), so nothing of the
batch — neither the malformed record nor the remaining well-formed ones — is
merged or persisted. -/
theorem C8_amended_batch_fails (current : ListState) (raw : List Json)
    (fresh : Nat → String) (p : Bool) (h : ∃ j ∈ raw, lacksUsable j = true) :
    ∃ e, categorize_items current raw fresh p = Except.error e := by
  obtain ⟨e, he⟩ := processRawList_err fresh raw 0 h
  refine ⟨e, ?_⟩
  unfold categorize_items
  rw [he]

/-- Witness for C8's amended claim at the concrete Eggs/Bread batch. -/
theorem C8_amended_batch_fails_witness :
    ∃ e, categorize_items [] [c8Eggs, c8Bad] (fun _ => "u1") true
        = Except.error e :=
  C8_amended_batch_fails [] [c8Eggs, c8Bad] (fun _ => "u1") true
    ⟨c8Bad, List.Mem.tail _ (List.Mem.head _), rfl⟩

/-- C10: when the aisle key exists, `update_item_status` always writes the
full rebuilt state to the persisted document — also when no id matches and the
content is unchanged; the aisle's items are rewritten by `checkFn`, which
changes only `checked` and preserves every other field; other aisles are
untouched. -/
theorem C10_set_checked (st : ListState) (d : Doc) (aisle item_id : String)
    (c : Bool) (items : List GroceryItem) (h : getAisle st aisle = some items) :
    ((⟨st, d⟩ : Agent).update_item_status aisle item_id c).persisted
        = save_state (((⟨st, d⟩ : Agent).update_item_status aisle item_id c).current_items)
    ∧ ((⟨st, d⟩ : Agent).update_item_status aisle item_id c).current_items
        = setVal st aisle (items.map (checkFn item_id c))
    ∧ ((∀ it ∈ items, it.id ≠ item_id) →
        ((⟨st, d⟩ : Agent).update_item_status aisle item_id c).current_items = st
        ∧ ((⟨st, d⟩ : Agent).update_item_status aisle item_id c).persisted
            = save_state st)
    ∧ (∀ a, a ≠ aisle →
        getAisle (((⟨st, d⟩ : Agent).update_item_status aisle item_id c).current_items) a
          = getAisle st a)
    ∧ getAisle (((⟨st, d⟩ : Agent).update_item_status aisle item_id c).current_items) aisle
        = some (items.map (checkFn item_id c))
    ∧ (∀ it, (checkFn item_id c it).id = it.id
        ∧ (checkFn item_id c it).name = it.name
        ∧ (checkFn item_id c it).aisle = it.aisle
        ∧ (checkFn item_id c it).quantity = it.quantity
        ∧ (checkFn item_id c it).quantity_unit = it.quantity_unit) := by
  have hred : (⟨st, d⟩ : Agent).update_item_status aisle item_id c
      = { current_items := setVal st aisle (items.map (checkFn item_id c)),
          persisted := save_state (setVal st aisle (items.map (checkFn item_id c))) } := by
    unfold Agent.update_item_status
    rw [h]
  rw [hred]
  refine ⟨rfl, rfl, ?_, ?_, ?_, ?_⟩
  · intro hno
    have hmap : items.map (checkFn item_id c) = items := map_checkFn_no_match hno
    rw [hmap, setVal_self h]
    exact ⟨rfl, rfl⟩
  · intro a ha
    exact getAisle_setVal_ne ha
  · exact getAisle_setVal_self h
  · intro it
    exact ⟨rfl, rfl, rfl, rfl, rfl⟩

/-- Witness for C10 at a concrete one-aisle state with a non-matching id. -/
theorem C10_set_checked_witness :
    ((⟨c10State, Doc.missing⟩ : Agent).update_item_status "Dairy" "no-such-id" true).persisted
        = save_state (((⟨c10State, Doc.missing⟩ : Agent).update_item_status
            "Dairy" "no-such-id" true).current_items)
    ∧ ((⟨c10State, Doc.missing⟩ : Agent).update_item_status "Dairy" "no-such-id" true).current_items
        = setVal c10State "Dairy" ([c10Milk].map (checkFn "no-such-id" true))
    ∧ ((∀ it ∈ [c10Milk], it.id ≠ "no-such-id") →
        ((⟨c10State, Doc.missing⟩ : Agent).update_item_status "Dairy" "no-such-id" true).current_items
            = c10State
        ∧ ((⟨c10State, Doc.missing⟩ : Agent).update_item_status "Dairy" "no-such-id" true).persisted
            = save_state c10State)
    ∧ (∀ a, a ≠ "Dairy" →
        getAisle (((⟨c10State, Doc.missing⟩ : Agent).update_item_status
            "Dairy" "no-such-id" true).current_items) a = getAisle c10State a)
    ∧ getAisle (((⟨c10State, Doc.missing⟩ : Agent).update_item_status
          "Dairy" "no-such-id" true).current_items) "Dairy"
        = some ([c10Milk].map (checkFn "no-such-id" true))
    ∧ (∀ it, (checkFn "no-such-id" true it).id = it.id
        ∧ (checkFn "no-such-id" true it).name = it.name
        ∧ (checkFn "no-such-id" true it).aisle = it.aisle
        ∧ (checkFn "no-such-id" true it).quantity = it.quantity
        ∧ (checkFn "no-such-id" true it).quantity_unit = it.quantity_unit) :=
  C10_set_checked c10State Doc.missing "Dairy" "no-such-id" true [c10Milk] (by decide)

end Grocer
